import Mathlib

/-!
# Verification of the zpay checkout / webhook / analysis-gate backend

Shallow embedding of the payment subsystem:

* `src/server/lib/zpay.mjs` — signature codec (`buildSignString`, `generateSign`,
  `verifySign`) and the order-number generator (`generateOrderNo`);
* the checkout route file (`router.post "/providers/zpay/url"`,
  `router.get "/providers/zpay/webhook"`) — order creation and the webhook
  state transition `pending → paid`;
* the analyze endpoint (`app.post "/api/analyze"`) — the payment gate and the
  state transition `paid → analyzed`;
* the `zpay_transactions` table (SQL schema) — the order data model.

Modelling conventions:

* JS objects / query-parameter maps are association lists
  `List (String × Option String)`; a value `none` models a JS `null` or an
  explicitly-`undefined` property, a missing key models an absent property.
  Property access is first-match lookup (`getParam`).
* The MD5 digest from the `crypto` library is an abstract parameter
  `md5 : String → String`; nothing proved here depends on its internals
  (theorems that need "a hex digest is never the empty string" take that as an
  explicit hypothesis).
* The Supabase store is a `List Order`.  `.select().eq(..).single()` is
  first-match lookup; `.update(..).eq("out_trade_no", no).eq("status", s)` is
  the conditional map `updateWhere` (it touches exactly the rows matching both
  filters and reports no error when zero rows match, exactly like PostgREST).
  Transient storage failures (`dbError` / `updateError` branches returning 500)
  and missing-environment-variable branches are outside the model: the store is
  reliable and the configuration (`key`, `pid`, …) is passed in as arguments.
* `Date` and `Math.random` are inputs: `generateOrderNo` takes the clock
  reading and the random draw explicitly.
* `parseFloat` on the plain unsigned decimal numerals exchanged here
  (`"0.50"`, `"5.00"`, a `DECIMAL(10,2)` column value) is modelled exactly as
  the rational value `mant / 10 ^ exp` (`DecimalVal`); for such numerals IEEE
  double rounding is equality-preserving, so exact rational equality coincides
  with the `!==` comparison the code performs.  Unparseable input (JS `NaN`)
  is `none`, and `NaN !== x` always holds, which the model mirrors.
-/

/-! ## SignatureCodec — src/server/lib/zpay.mjs -/

/-- A JS parameter object: association list of key / optional value. -/
abbrev Params := List (String × Option String)

/-- JS property access `params[k]`: first binding wins; absent property and
`null`-valued property both come out as `none`. -/
def getParam : Params → String → Option String
  | [], _ => none
  | (k, v) :: rest, key => if k = key then v else getParam rest key

/-- The filter of `buildSignString`:
`v !== "" && v !== null && v !== undefined && k !== "sign" && k !== "sign_type"`. -/
def keepParam (kv : String × Option String) : Bool :=
  match kv.2 with
  | none => false
  | some v => decide (v ≠ "") && decide (kv.1 ≠ "sign") && decide (kv.1 ≠ "sign_type")

/-- Lexicographic byte-order `≤` on char lists (JS string comparison
`a < b ? -1 : a > b ? 1 : 0` sorts by exactly this order on the ASCII keys
used here). -/
def charListLeb : List Char → List Char → Bool
  | [], _ => true
  | _ :: _, [] => false
  | a :: as, b :: bs =>
    if a.toNat < b.toNat then true
    else if b.toNat < a.toNat then false
    else charListLeb as bs

/-- Key order used by the `.sort` call in `buildSignString`. -/
def keyLe (a b : String × Option String) : Prop :=
  charListLeb a.1.data b.1.data = true

instance : DecidableRel keyLe := fun a b =>
  inferInstanceAs (Decidable (charListLeb a.1.data b.1.data = true))

theorem charListLeb_total : ∀ x y : List Char, charListLeb x y = true ∨ charListLeb y x = true
  | [], _ => Or.inl rfl
  | _ :: _, [] => Or.inr rfl
  | a :: as, b :: bs => by
    by_cases hab : a.toNat < b.toNat
    · exact Or.inl (by simp [charListLeb, hab])
    · by_cases hba : b.toNat < a.toNat
      · exact Or.inr (by simp [charListLeb, hba])
      · rcases charListLeb_total as bs with h | h
        · exact Or.inl (by simp [charListLeb, hab, hba, h])
        · exact Or.inr (by simp [charListLeb, hab, hba, h])

theorem charListLeb_trans : ∀ x y z : List Char,
    charListLeb x y = true → charListLeb y z = true → charListLeb x z = true
  | [], _, _, _, _ => rfl
  | _ :: _, [], _, h, _ => by simp [charListLeb] at h
  | _ :: _, _ :: _, [], _, h => by simp [charListLeb] at h
  | a :: as, b :: bs, c :: cs, hab, hbc => by
    simp only [charListLeb] at hab hbc ⊢
    by_cases h1 : a.toNat < b.toNat
    · by_cases h2 : b.toNat < c.toNat
      · simp [lt_trans h1 h2]
      · by_cases h3 : c.toNat < b.toNat
        · simp [h2, h3] at hbc
        · have : b.toNat = c.toNat := le_antisymm (not_lt.mp h3) (not_lt.mp h2)
          simp [this ▸ h1]
    · by_cases h4 : b.toNat < a.toNat
      · simp [h1, h4] at hab
      · have hba : a.toNat = b.toNat := le_antisymm (not_lt.mp h4) (not_lt.mp h1)
        by_cases h2 : b.toNat < c.toNat
        · simp [hba ▸ h2]
        · by_cases h3 : c.toNat < b.toNat
          · simp [h2, h3] at hbc
          · have hcb : b.toNat = c.toNat := le_antisymm (not_lt.mp h3) (not_lt.mp h2)
            have hac : a.toNat = c.toNat := hba.trans hcb
            simp only [h1, if_false, h4, if_false] at hab
            simp only [h2, if_false, h3, if_false] at hbc
            simp [hac, charListLeb_trans as bs cs hab hbc]

instance : IsTotal (String × Option String) keyLe :=
  ⟨fun a b => charListLeb_total a.1.data b.1.data⟩

instance : IsTrans (String × Option String) keyLe :=
  ⟨fun a b c => charListLeb_trans a.1.data b.1.data c.1.data⟩

/-- The filtered and key-sorted entry list that `buildSignString` joins. -/
def canonicalEntries (params : Params) : Params :=
  (params.filter keepParam).insertionSort keyLe

/-- One `k=v` fragment of the canonical string. -/
def pairString (kv : String × Option String) : String :=
  kv.1 ++ "=" ++ kv.2.getD ""

/-- `buildSignString` (zpay.mjs): filter out empty values and the reserved
`sign` / `sign_type` keys, sort by key ascending, join as `k=v&k=v`. -/
def buildSignString (params : Params) : String :=
  String.intercalate "&" ((canonicalEntries params).map pairString)

/-- `generateSign` (zpay.mjs): `md5(buildSignString(params) + key)`, with the
digest left abstract. -/
def generateSign (md5 : String → String) (params : Params) (key : String) : String :=
  md5 (buildSignString params ++ key)

/-- `verifySign` (zpay.mjs): `if (!params.sign) return false;` then exact
string comparison with the recomputed signature.  The JS falsy strings are
exactly absent / `null` / `""`. -/
def verifySign (md5 : String → String) (params : Params) (key : String) : Bool :=
  match getParam params "sign" with
  | none => false
  | some s => if s = "" then false else decide (s = generateSign md5 params key)

/-- `{...params, sign: s}`: the spread result looks up `sign` to `s` and leaves
every other binding intact. -/
def withSign (params : Params) (s : String) : Params :=
  ("sign", some s) :: params.filter (fun kv => decide (kv.1 ≠ "sign"))

theorem keepParam_iff (kv : String × Option String) :
    keepParam kv = true ↔
      kv.1 ≠ "sign" ∧ kv.1 ≠ "sign_type" ∧ ∃ v, kv.2 = some v ∧ v ≠ "" := by
  rcases kv with ⟨k, v⟩
  cases v with
  | none => simp [keepParam]
  | some s =>
    simp only [keepParam, Bool.and_eq_true, decide_eq_true_eq, Option.some.injEq]
    constructor
    · rintro ⟨⟨hs, h1⟩, h2⟩
      exact ⟨h1, h2, s, rfl, hs⟩
    · rintro ⟨h1, h2, w, hw, hne⟩
      exact ⟨⟨hw ▸ hne, h1⟩, h2⟩

theorem keepParam_ne_sign (kv : String × Option String) (h : keepParam kv = true) :
    kv.1 ≠ "sign" :=
  ((keepParam_iff kv).mp h).1

/-- Appending a `sign` binding never changes the canonical string: the
canonicalization filter drops the signature field itself. -/
theorem buildSignString_withSign (params : Params) (s : String) :
    buildSignString (withSign params s) = buildSignString params := by
  have h0 : keepParam ("sign", some s) = false := by simp [keepParam]
  have h1 : (withSign params s).filter keepParam = params.filter keepParam := by
    simp only [withSign, List.filter_cons, h0, Bool.false_eq_true, if_false]
    rw [List.filter_filter]
    refine List.filter_congr fun kv _ => ?_
    cases hk : keepParam kv with
    | false => simp
    | true => simp [keepParam_ne_sign kv hk]
  simp only [buildSignString, canonicalEntries, h1]

/-- **C6.** `verifySign` fails closed when the signature field is absent;
when a signature string is supplied it verifies exactly when it equals the
signature recomputed over the same parameters and secret (the `sign` field
itself being excluded from canonicalization by `keepParam`); and any
parameter map extended with its own computed signature verifies.  The digest
is abstract; the single fact used about it is that it never returns the empty
string (true of the 32-char lowercase hex MD5 in the source). -/
theorem verifySign_correct (md5 : String → String) (hmd5 : ∀ s, md5 s ≠ "")
    (params : Params) (secret : String) :
    (getParam params "sign" = none → verifySign md5 params secret = false)
    ∧ (∀ s, getParam params "sign" = some s →
        (verifySign md5 params secret = true ↔ s = generateSign md5 params secret))
    ∧ verifySign md5 (withSign params (generateSign md5 params secret)) secret = true := by
  refine ⟨fun h => by simp [verifySign, h], fun s hs => ?_, ?_⟩
  · by_cases he : s = ""
    · subst he
      have hv : verifySign md5 params secret = false := by simp [verifySign, hs]
      rw [hv]
      simp only [Bool.false_eq_true, false_iff]
      exact fun h => hmd5 _ h.symm
    · simp [verifySign, hs, he]
  · have hget : getParam (withSign params (generateSign md5 params secret)) "sign" =
        some (generateSign md5 params secret) := by
      simp [withSign, getParam]
    have hne : generateSign md5 params secret ≠ "" := hmd5 _
    have hsig : generateSign md5 (withSign params (generateSign md5 params secret)) secret =
        generateSign md5 params secret := by
      simp only [generateSign, buildSignString_withSign]
    simp [verifySign, hget, hne, hsig]

/-- Concrete digest used by witnesses: a constant nonempty "hex" output. -/
def md5c : String → String := fun _ => "0a1b"

/-- Concrete parameter map used by the C6 witness. -/
def paramsC6 : Params := [("money", some "0.50"), ("out_trade_no", some "X1")]

/-- Witness for C6 at a concrete digest, parameter map and secret. -/
theorem verifySign_correct_witness :
    (getParam paramsC6 "sign" = none → verifySign md5c paramsC6 "k" = false)
    ∧ (∀ s, getParam paramsC6 "sign" = some s →
        (verifySign md5c paramsC6 "k" = true ↔ s = generateSign md5c paramsC6 "k"))
    ∧ verifySign md5c (withSign paramsC6 (generateSign md5c paramsC6 "k")) "k" = true :=
  verifySign_correct md5c (fun s => by simp only [md5c]; decide) paramsC6 "k"

/-- **C7.** `buildSignString` joins exactly the canonical entry list with
`&`; an entry survives canonicalization iff it came from the input, its key
is neither `sign` nor `sign_type`, and its value is present and nonempty; and
the canonical entry list is sorted ascending in byte order on keys.
Determinism and absence of side effects hold by construction: the embedding
is a pure function of its argument, as is the source (it only maps, filters,
sorts and joins its input). -/
theorem buildSignString_canonical (params : Params) :
    buildSignString params = String.intercalate "&" ((canonicalEntries params).map pairString)
    ∧ (∀ kv : String × Option String,
        kv ∈ canonicalEntries params ↔
          kv ∈ params ∧ kv.1 ≠ "sign" ∧ kv.1 ≠ "sign_type" ∧ ∃ v, kv.2 = some v ∧ v ≠ "")
    ∧ (canonicalEntries params).Sorted keyLe := by
  refine ⟨rfl, fun kv => ?_, List.sorted_insertionSort keyLe _⟩
  rw [canonicalEntries, (List.perm_insertionSort keyLe _).mem_iff, List.mem_filter,
    keepParam_iff]

/-- **C10.** A present-but-empty signature (a falsy JS string) also fails
closed, for every secret.  The digest argument is universally quantified, so
the result does not depend on any recomputed signature value. -/
theorem verifySign_empty_sign_fails (md5 : String → String) (params : Params)
    (secret : String) (h : getParam params "sign" = some "") :
    verifySign md5 params secret = false := by
  simp [verifySign, h]

/-- Witness for C10: a concrete map whose `sign` field is the empty string. -/
theorem verifySign_empty_sign_fails_witness :
    getParam [("sign", some ""), ("money", some "0.50")] "sign" = some ""
    ∧ verifySign md5c [("sign", some ""), ("money", some "0.50")] "k" = false :=
  ⟨rfl, verifySign_empty_sign_fails md5c _ "k" rfl⟩

/-! ## Order data model — zpay_transactions table -/

/-- `status` column: `CHECK (status IN ('pending','paid','analyzed'))`. -/
inductive OrderStatus
  | pending
  | paid
  | analyzed
deriving DecidableEq, Repr

/-- One `zpay_transactions` row, restricted to the columns the routes read or
write.  `amount` is the `DECIMAL(10,2)` column in cents (so the decimal value
is `amount / 100`); `trade_no` / `trade_status` are `NULL` until the webhook
fills them. -/
structure Order where
  out_trade_no : String
  uid : String
  amount : Nat
  pay_type : String
  status : OrderStatus
  trade_no : Option String
  trade_status : Option String
  updated_at : String
deriving DecidableEq, Repr

/-- The `zpay_transactions` table. -/
abbrev Store := List Order

/-- `.select().eq("out_trade_no", no).single()`: the row with that order
number (first match; the column is UNIQUE). -/
def findOrder : Store → String → Option Order
  | [], _ => none
  | o :: rest, no => if o.out_trade_no = no then some o else findOrder rest no

/-- `.update(fields).eq("out_trade_no", no).eq("status", expected)`: the
conditional (status-guarded) update.  It rewrites exactly the rows matching
both filters and is a no-op — reporting no error — when none matches. -/
def updateWhere (store : Store) (no : String) (expected : OrderStatus)
    (f : Order → Order) : Store :=
  store.map (fun o => if o.out_trade_no = no ∧ o.status = expected then f o else o)

/-- Status of the order with the given order number, if any. -/
def statusOf (store : Store) (no : String) : Option OrderStatus :=
  (findOrder store no).map (fun o => o.status)

/-! ## parseFloat on decimal numerals -/

/-- Exact value of a decimal numeral: `mant / 10 ^ exp`. -/
structure DecimalVal where
  mant : Nat
  exp : Nat
deriving DecidableEq, Repr

/-- Exact equality of two decimal values, by cross-multiplication. -/
def DecimalVal.valEq (a b : DecimalVal) : Bool :=
  a.mant * 10 ^ b.exp == b.mant * 10 ^ a.exp

/-- Numeric value of a digit list (most significant first). -/
def digitsVal (l : List Char) : Nat :=
  l.foldl (fun acc c => acc * 10 + (c.toNat - 48)) 0

/-- Split a char list at every `'.'` (the shape `String.split` on `'.'`
produces). -/
def splitOnDot : List Char → List (List Char)
  | [] => [[]]
  | c :: rest =>
    if c = '.' then [] :: splitOnDot rest
    else
      match splitOnDot rest with
      | [] => [[c]]
      | h :: t => (c :: h) :: t

/-- `parseFloat` on a plain unsigned decimal numeral (`"0.50"`, `"5"`,
`".5"`, `"5."`); anything else — including an absent value — is JS `NaN`,
modelled as `none`.  The numerals this subsystem compares (`money` query
parameter, `DECIMAL(10,2)` column) are far below the 15-significant-digit
bound up to which decimal-to-double conversion is injective, so exact
rational equality of the parsed values coincides with the strict `!==`
comparison of the parsed doubles in the source. -/
def parseDecimal (s : String) : Option DecimalVal :=
  match splitOnDot s.data with
  | [i] =>
    if i ≠ [] ∧ i.all (fun c => c.isDigit) then some ⟨digitsVal i, 0⟩
    else none
  | [i, f] =>
    if (i ≠ [] ∨ f ≠ []) ∧ i.all (fun c => c.isDigit) ∧ f.all (fun c => c.isDigit) then
      some ⟨digitsVal i * 10 ^ f.length + digitsVal f, f.length⟩
    else none
  | _ => none

/-- `parseFloat` applied to a possibly-absent webhook parameter. -/
def parseAmount : Option String → Option DecimalVal
  | none => none
  | some s => parseDecimal s

/-- The stored `DECIMAL(10,2)` amount as a decimal value (`cents / 100`). -/
def amountVal (cents : Nat) : DecimalVal := ⟨cents, 2⟩

/-- The amount-consistency test the webhook performs:
`parseFloat(money) !== parseFloat(order.amount)` negated.  `none` models JS
`NaN`, and `NaN !== x` for every `x`, so an unparseable reported amount never
matches. -/
def amountMatches (money : Option String) (cents : Nat) : Bool :=
  match parseAmount money with
  | none => false
  | some v => v.valEq (amountVal cents)

/-! ## WebhookHandler — router.get "/providers/zpay/webhook" -/

/-- The four response shapes of the webhook route.  `success` is the bare
provider acknowledgment token (HTTP 200 body `"success"`); the others carry a
4xx status and a non-success body (`"sign error"`, `"order not found"`,
`"amount mismatch"`). -/
inductive WebhookResp
  | success
  | signError
  | orderNotFound
  | amountMismatch
deriving DecidableEq, Repr

/-- The field set the webhook writes on the `pending → paid` transition:
`status`, `trade_no`, `trade_status`, `pay_type` (from the `type` query
parameter) and `updated_at`.  An `undefined` query parameter is dropped by
JSON serialization before it reaches the store, leaving that column
untouched, which the `none` branches mirror. -/
def webhookPaidUpdate (params : Params) (now : String) (o : Order) : Order :=
  { o with
    status := .paid
    trade_no := match getParam params "trade_no" with
      | some t => some t
      | none => o.trade_no
    trade_status := match getParam params "trade_status" with
      | some t => some t
      | none => o.trade_status
    pay_type := match getParam params "type" with
      | some t => t
      | none => o.pay_type
    updated_at := now }

/-- The order the webhook operates on: `.eq("out_trade_no", out_trade_no)`
with the destructured query parameter (an absent parameter matches no row). -/
def lookupOrder (store : Store) (params : Params) : Option Order :=
  match getParam params "out_trade_no" with
  | none => none
  | some no => findOrder store no

/-- The webhook route (`router.get "/providers/zpay/webhook"`), given the
configured secret `key` and the callback query parameters: verify the
signature; acknowledge non-success provider statuses without touching the
store; 404 on an unknown order; acknowledge an already-processed order
unchanged; reject an inconsistent amount; otherwise apply the conditional
`pending → paid` update and acknowledge. -/
def zpayWebhook (md5 : String → String) (key : String) (store : Store)
    (params : Params) (now : String) : WebhookResp × Store :=
  if verifySign md5 params key = false then (.signError, store)
  else if getParam params "trade_status" ≠ some "TRADE_SUCCESS" then (.success, store)
  else
    match lookupOrder store params with
    | none => (.orderNotFound, store)
    | some o =>
      if o.status ≠ .pending then (.success, store)
      else if amountMatches (getParam params "money") o.amount = false then
        (.amountMismatch, store)
      else
        (.success,
          updateWhere store ((getParam params "out_trade_no").getD "") .pending
            (webhookPaidUpdate params now))

/-! ## AnalysisGate — app.post "/api/analyze" payment block -/

/-- Outcomes of the payment-verification block of the analyze endpoint.
`proceed` means the request passed all gate checks and goes on to the paid
AI-analysis action; the others are the early JSON error returns. -/
inductive AnalyzeResp
  | missingOrderNo402
  | notFound404
  | alreadyUsed409
  | notPaid402
  | proceed
deriving DecidableEq, Repr

/-- The read-side checks of the analyze gate, against the store snapshot the
`.select()` returned: missing/falsy `out_trade_no` → 402, unknown order →
404, `analyzed` → 409, not `paid` → 402; `none` means all checks passed. -/
def analyzeCheck (store : Store) (otn : Option String) : Option AnalyzeResp :=
  match otn with
  | none => some .missingOrderNo402
  | some no =>
    if no = "" then some .missingOrderNo402
    else
      match findOrder store no with
      | none => some .notFound404
      | some o =>
        if o.status = .analyzed then some .alreadyUsed409
        else if o.status ≠ .paid then some .notPaid402
        else none

/-- The write side of the analyze gate: the conditional
`paid → analyzed` update (`.update({status:"analyzed",...}).eq("out_trade_no",
no).eq("status","paid")`). -/
def analyzeUpdate (store : Store) (no : String) (now : String) : Store :=
  updateWhere store no .paid
    (fun o => { o with status := .analyzed, updated_at := now })

/-- One invocation of the analyze endpoint's payment block as two storage
round trips: the checks run against `checkStore` (the snapshot its
`.select()` read) and the conditional update runs against `updStore` (the
table state when its `.update()` lands).  The source inspects only
`updateError` — a storage fault, outside this model — after the update, and
PostgREST reports no error when the update matches zero rows, so the
invocation proceeds whenever the read-side checks passed, whether or not the
conditional transition applied. -/
def analyzeTwoPhase (checkStore updStore : Store) (otn : Option String)
    (now : String) : AnalyzeResp × Store :=
  match analyzeCheck checkStore otn with
  | some e => (e, updStore)
  | none => (.proceed, analyzeUpdate updStore (otn.getD "") now)

/-- The analyze endpoint's payment block executed without interference: read
and update see the same table state. -/
def analyzeHandler (store : Store) (otn : Option String) (now : String) :
    AnalyzeResp × Store :=
  analyzeTwoPhase store store otn now

/-! ## CheckoutService — router.post "/providers/zpay/url" -/

/-- Responses of the checkout-creation route, restricted to what the claims
concern: 400 on invalid input, the 500 `"创建订单失败"` JSON error when the
insert fails, and success carrying the new order number.  (The signed
redirect URL the success response also carries is presentation glue no claim
depends on, so it is not modelled.) -/
inductive CheckoutResp
  | badRequest
  | insertFailed
  | ok (out_trade_no : String)
deriving DecidableEq, Repr

/-- The row the checkout route inserts: `status: "pending"`, fixed amount
`parseFloat("0.50")` (50 cents), `trade_no`/`trade_status` unset,
`created_at`/`updated_at` defaulted by the table. -/
def newOrder (no uid pt now : String) : Order :=
  { out_trade_no := no
    uid := uid
    amount := 50
    pay_type := pt
    status := .pending
    trade_no := none
    trade_status := none
    updated_at := now }

/-- The checkout-creation route (`router.post "/providers/zpay/url"`).  The
order-number generator is an input stream `gen` (`generateOrderNo` draws from
clock and randomness); the route calls it once, for `gen 0`.  The insert
fails — and the route answers 500 immediately — exactly when the UNIQUE
constraint on `out_trade_no` is violated, i.e. when `gen 0` is already
present. -/
def createCheckout (gen : Nat → String) (store : Store) (uid : Option String)
    (pay_type : Option String) (now : String) : CheckoutResp × Store :=
  if uid = none ∨ uid = some "" then (.badRequest, store)
  else if pay_type.getD "alipay" ≠ "alipay" ∧ pay_type.getD "alipay" ≠ "wxpay" then
    (.badRequest, store)
  else if (findOrder store (gen 0)).isSome then (.insertFailed, store)
  else
    (.ok (gen 0),
      store ++ [newOrder (gen 0) (uid.getD "") (pay_type.getD "alipay") now])

/-! ## OrderIdGenerator — generateOrderNo (zpay.mjs) -/

/-- Decimal digit character, `'0'` + d. -/
def digitChar (d : Nat) : Char := Char.ofNat (48 + d)

/-- Decimal rendering of a natural number (JS `String(n)`), fuel-indexed so
that it is structural; `natStr` supplies enough fuel. -/
def natStrAux : Nat → Nat → String
  | 0, _ => ""
  | fuel + 1, n =>
    if n < 10 then String.singleton (digitChar n)
    else natStrAux fuel (n / 10) ++ String.singleton (digitChar (n % 10))

/-- JS `String(n)` for a natural number. -/
def natStr (n : Nat) : String := natStrAux (n + 1) n

/-- `String(n).padStart(2, "0")`. -/
def padTwo (n : Nat) : String :=
  if (natStr n).length < 2 then "0" ++ natStr n else natStr n

/-- A `Date` reading, named after the getters the source calls.  `month` is
`getMonth()`, zero-based as in JS. -/
structure JsDate where
  year : Nat
  month : Nat
  day : Nat
  hour : Nat
  minute : Nat
  second : Nat

/-- The timestamp prefix of `generateOrderNo`:
`String(getFullYear())` followed by the five two-padded components. -/
def tsString (d : JsDate) : String :=
  natStr d.year ++ padTwo (d.month + 1) ++ padTwo d.day ++ padTwo d.hour
    ++ padTwo d.minute ++ padTwo d.second

/-- `generateOrderNo` (zpay.mjs): timestamp prefix plus the random suffix
`Math.floor(Math.random() * 900) + 100`, with the raw draw
`r = Math.floor(Math.random() * 900)` an explicit input. -/
def generateOrderNo (d : JsDate) (r : Nat) : String :=
  tsString d ++ natStr (r + 100)

/-! ## C1 — the status state machine moves forward only -/

/-- What one webhook-callback or analysis-gate operation may do to one
order's status: leave it alone, or take exactly one forward step of the
`pending → paid → analyzed` chain. -/
abbrev StatusStep (a b : Option OrderStatus) : Prop :=
  b = a ∨ (a = some .pending ∧ b = some .paid) ∨ (a = some .paid ∧ b = some .analyzed)

/-- Reachability along the forward chain (never backward, never skipping
`paid` on the way to `analyzed` in a single step). -/
abbrev StatusLe (a b : Option OrderStatus) : Prop :=
  b = a ∨ (a = some .pending ∧ (b = some .paid ∨ b = some .analyzed))
    ∨ (a = some .paid ∧ b = some .analyzed)

/-- The operations of the claim: a webhook delivery, an analyze call, and —
so that arbitrarily interleaved concurrent executions are covered — the bare
write phase of either handler (its conditional update landing on a table
state possibly different from the snapshot its checks read). -/
inductive GateOp
  | webhook (params : Params) (now : String)
  | webhookWrite (params : Params) (now : String)
  | analyze (otn : Option String) (now : String)
  | analyzeWrite (otn : Option String) (now : String)

/-- Effect of one operation on the table. -/
def applyGateOp (md5 : String → String) (key : String) (store : Store) :
    GateOp → Store
  | .webhook params now => (zpayWebhook md5 key store params now).2
  | .webhookWrite params now =>
    updateWhere store ((getParam params "out_trade_no").getD "") .pending
      (webhookPaidUpdate params now)
  | .analyze otn now => (analyzeHandler store otn now).2
  | .analyzeWrite otn now => analyzeUpdate store (otn.getD "") now

/-- Effect of a sequence of operations. -/
def applyGateOps (md5 : String → String) (key : String) (store : Store)
    (ops : List GateOp) : Store :=
  ops.foldl (applyGateOp md5 key) store


theorem findOrder_updateWhere (store : Store) (no : String) (exp : OrderStatus)
    (f : Order → Order) (hf : ∀ o, (f o).out_trade_no = o.out_trade_no)
    (no' : String) :
    findOrder (updateWhere store no exp f) no' =
      (findOrder store no').map
        (fun o => if o.out_trade_no = no ∧ o.status = exp then f o else o) := by
  induction store with
  | nil => rfl
  | cons o rest ih =>
    simp only [updateWhere, List.map_cons, findOrder] at ih ⊢
    by_cases hc : o.out_trade_no = no ∧ o.status = exp
    · rw [if_pos hc]
      by_cases hm : o.out_trade_no = no'
      · rw [if_pos ((hf o).trans hm), if_pos hm]
        simp [hc]
      · rw [if_neg (fun h => hm ((hf o).symm.trans h)), if_neg hm, ih]
    · rw [if_neg hc]
      by_cases hm : o.out_trade_no = no'
      · rw [if_pos hm, if_pos hm]
        simp [hc]
      · rw [if_neg hm, if_neg hm, ih]

theorem statusOf_updateWhere (store : Store) (no : String) (exp : OrderStatus)
    (f : Order → Order) (hf : ∀ o, (f o).out_trade_no = o.out_trade_no)
    (no' : String) :
    statusOf (updateWhere store no exp f) no' =
      (findOrder store no').map
        (fun o => if o.out_trade_no = no ∧ o.status = exp then (f o).status else o.status) := by
  rw [statusOf, findOrder_updateWhere store no exp f hf no', Option.map_map]
  refine congrArg (fun g => Option.map g (findOrder store no')) ?_
  funext o
  by_cases hc : o.out_trade_no = no ∧ o.status = exp <;> simp [hc]

theorem statusStep_webhookUpdate (store : Store) (no : String) (params : Params)
    (now : String) (no' : String) :
    StatusStep (statusOf store no')
      (statusOf (updateWhere store no .pending (webhookPaidUpdate params now)) no') := by
  rw [statusOf_updateWhere store no .pending (webhookPaidUpdate params now) (fun o => rfl) no']
  cases h : findOrder store no' with
  | none => exact Or.inl (by simp [statusOf, h])
  | some o =>
    by_cases hc : o.out_trade_no = no ∧ o.status = .pending
    · exact Or.inr (Or.inl (by simp [statusOf, h, hc, hc.2, webhookPaidUpdate]))
    · exact Or.inl (by simp [statusOf, h, hc])

theorem statusStep_analyzeUpdate (store : Store) (no : String) (now : String)
    (no' : String) :
    StatusStep (statusOf store no') (statusOf (analyzeUpdate store no now) no') := by
  unfold analyzeUpdate
  rw [statusOf_updateWhere store no .paid
    (fun o => { o with status := .analyzed, updated_at := now }) (fun o => rfl) no']
  cases h : findOrder store no' with
  | none => exact Or.inl (by simp [statusOf, h])
  | some o =>
    by_cases hc : o.out_trade_no = no ∧ o.status = .paid
    · exact Or.inr (Or.inr (by simp [statusOf, h, hc, hc.2]))
    · exact Or.inl (by simp [statusOf, h, hc])

theorem zpayWebhook_snd (md5 : String → String) (key : String) (store : Store)
    (params : Params) (now : String) :
    (zpayWebhook md5 key store params now).2 = store
    ∨ (zpayWebhook md5 key store params now).2 =
        updateWhere store ((getParam params "out_trade_no").getD "") .pending
          (webhookPaidUpdate params now) := by
  unfold zpayWebhook
  repeat' split
  all_goals first
  | exact Or.inl rfl
  | exact Or.inr rfl

theorem analyzeTwoPhase_snd (checkStore updStore : Store) (otn : Option String)
    (now : String) :
    (analyzeTwoPhase checkStore updStore otn now).2 = updStore
    ∨ (analyzeTwoPhase checkStore updStore otn now).2 =
        analyzeUpdate updStore (otn.getD "") now := by
  unfold analyzeTwoPhase
  split
  · exact Or.inl rfl
  · exact Or.inr rfl

theorem statusStep_applyGateOp (md5 : String → String) (key : String)
    (op : GateOp) (store : Store) (no : String) :
    StatusStep (statusOf store no) (statusOf (applyGateOp md5 key store op) no) := by
  cases op with
  | webhook params now =>
    rcases zpayWebhook_snd md5 key store params now with h | h <;>
      simp only [applyGateOp, h]
    · exact Or.inl rfl
    · exact statusStep_webhookUpdate store _ params now no
  | webhookWrite params now =>
    exact statusStep_webhookUpdate store _ params now no
  | analyze otn now =>
    rcases analyzeTwoPhase_snd store store otn now with h | h <;>
      simp only [applyGateOp, analyzeHandler, h]
    · exact Or.inl rfl
    · exact statusStep_analyzeUpdate store _ now no
  | analyzeWrite otn now =>
    exact statusStep_analyzeUpdate store _ now no

theorem statusStep_le {a b : Option OrderStatus} (h : StatusStep a b) : StatusLe a b := by
  rcases h with h | ⟨h1, h2⟩ | ⟨h1, h2⟩
  · exact Or.inl h
  · exact Or.inr (Or.inl ⟨h1, Or.inl h2⟩)
  · exact Or.inr (Or.inr ⟨h1, h2⟩)

theorem statusLe_trans {a b c : Option OrderStatus} (h1 : StatusLe a b)
    (h2 : StatusLe b c) : StatusLe a c := by
  rcases h1 with rfl | ⟨ha, hb | hb⟩ | ⟨ha, hb⟩ <;>
    rcases h2 with rfl | ⟨hb', hc | hc⟩ | ⟨hb', hc⟩ <;>
    subst_vars <;>
    first
    | exact Or.inl rfl
    | decide

/-- **C1.**  For every order and every sequence of webhook-callback and
analysis-gate operations (including the bare write phases of interleaved
concurrent invocations), the order's status only moves forward along
`pending → paid → analyzed`: each single operation either leaves a status
unchanged or applies exactly one forward edge — so no operation takes
`pending` directly to `analyzed`, none moves backward, and a transition to
`analyzed` is only ever applied to an order whose current status is `paid`
(hence is never observed before that order's `pending → paid` transition) —
and over any operation sequence the status is forward-reachable from where
it started. -/
theorem zpay_status_forward_only (md5 : String → String) (key : String) :
    (∀ (op : GateOp) (store : Store) (no : String),
      StatusStep (statusOf store no) (statusOf (applyGateOp md5 key store op) no))
    ∧ (∀ (ops : List GateOp) (store : Store) (no : String),
      StatusLe (statusOf store no) (statusOf (applyGateOps md5 key store ops) no)) := by
  refine ⟨statusStep_applyGateOp md5 key, fun ops => ?_⟩
  induction ops with
  | nil => exact fun store no => Or.inl rfl
  | cons op rest ih =>
    intro store no
    exact statusLe_trans
      (statusStep_le (statusStep_applyGateOp md5 key op store no))
      (ih (applyGateOp md5 key store op) no)

/-- **C3.**  The webhook returns a non-success token exactly when the
signature fails to verify, when (for a success-status notification) the named
order does not exist, or when (for a success-status notification of a still
pending order) the reported amount mismatches the stored amount; in every
other case — non-success provider status, already-processed duplicate, or an
applied conditional transition — it returns the success token.  (The route
sends its acknowledgment before its conditional update reports anything, so
the success token is also what a delivery that lost the update race
receives.) -/
theorem webhook_nonsuccess_iff (md5 : String → String) (key : String)
    (store : Store) (params : Params) (now : String) :
    (zpayWebhook md5 key store params now).1 ≠ .success ↔
      (verifySign md5 params key = false
       ∨ (getParam params "trade_status" = some "TRADE_SUCCESS"
          ∧ lookupOrder store params = none)
       ∨ (getParam params "trade_status" = some "TRADE_SUCCESS"
          ∧ ∃ o, lookupOrder store params = some o ∧ o.status = .pending
              ∧ amountMatches (getParam params "money") o.amount = false)) := by
  cases hv : verifySign md5 params key with
  | false =>
    simp only [zpayWebhook, hv, if_pos rfl]
    simp
  | true =>
    rw [zpayWebhook, if_neg (by simp [hv])]
    by_cases hts : getParam params "trade_status" = some "TRADE_SUCCESS"
    · rw [if_neg (by simp [hts])]
      cases hlk : lookupOrder store params with
      | none => simp [hts, hlk, hv]
      | some o =>
        by_cases hp : o.status = .pending
        · cases ham : amountMatches (getParam params "money") o.amount with
          | false => simp [hts, hlk, hp, ham, hv]
          | true => simp [hts, hlk, hp, ham, hv]
        · simp [hts, hlk, hp, hv]
    · rw [if_pos (by simp [hts])]
      simp [hts, hv]

/-- **C4.**  A verified success-status callback for an order that is no
longer `pending` is treated as an idempotent duplicate: the webhook responds
with the success token and the store is returned unchanged — no amount check
is reached (the `money` parameter is unconstrained here) and no row is
mutated. -/
theorem webhook_duplicate_idempotent (md5 : String → String) (key : String)
    (store : Store) (params : Params) (now : String) (o : Order)
    (hv : verifySign md5 params key = true)
    (hts : getParam params "trade_status" = some "TRADE_SUCCESS")
    (ho : lookupOrder store params = some o)
    (hst : o.status ≠ .pending) :
    zpayWebhook md5 key store params now = (.success, store) := by
  rw [zpayWebhook, if_neg (by simp [hv]), if_neg (by simp [hts]), ho]
  simp [hst]

/-- Witness data for C4: a paid (already processed) order. -/
def orderC4 : Order :=
  ⟨"A1", "u1", 50, "alipay", .paid, some "T1", some "TRADE_SUCCESS", "t1"⟩

def paramsC4 : Params :=
  [("money", some "9.99"), ("out_trade_no", some "A1"), ("trade_no", some "T2"),
   ("trade_status", some "TRADE_SUCCESS"), ("type", some "alipay"), ("sign", some "0a1b")]

theorem webhook_duplicate_idempotent_witness :
    verifySign md5c paramsC4 "k" = true
    ∧ orderC4.status ≠ .pending
    ∧ zpayWebhook md5c "k" [orderC4] paramsC4 "t9" = (.success, [orderC4]) :=
  ⟨by decide, by decide,
    webhook_duplicate_idempotent md5c "k" [orderC4] paramsC4 "t9" orderC4
      (by decide) (by decide) (by decide) (by decide)⟩

/-- Canonical byte rendering of a `DECIMAL(10,2)` value (always two fraction
digits), used to state the byte-for-byte reading of C5. -/
def decimalRepr (cents : Nat) : String :=
  natStr (cents / 100) ++ "." ++ padTwo (cents % 100)

/-- **C5 (amended).**  For every webhook input that reaches the amount check
(valid signature, success status, existing `pending` order), the reported
amount is compared with the stored amount under exact numeric equality of
the parsed decimal values (`parseFloat` on both sides, strict `!==`, no
tolerance) — not byte-for-byte equality of the decimal strings — and on any
mismatch the webhook responds with the error token and returns the store
unchanged, leaving the order's status and every other field as they were. -/
theorem webhook_amount_mismatch_rejected (md5 : String → String) (key : String)
    (store : Store) (params : Params) (now : String) (o : Order)
    (hv : verifySign md5 params key = true)
    (hts : getParam params "trade_status" = some "TRADE_SUCCESS")
    (ho : lookupOrder store params = some o)
    (hp : o.status = .pending)
    (hm : amountMatches (getParam params "money") o.amount = false) :
    zpayWebhook md5 key store params now = (.amountMismatch, store) := by
  rw [zpayWebhook, if_neg (by simp [hv]), if_neg (by simp [hts]), ho]
  simp [hp, hm]

def orderC5 : Order := ⟨"B1", "u1", 50, "alipay", .pending, none, none, "t0"⟩

def paramsC5 : Params :=
  [("money", some "5.00"), ("out_trade_no", some "B1"), ("trade_no", some "T1"),
   ("trade_status", some "TRADE_SUCCESS"), ("type", some "alipay"), ("sign", some "0a1b")]

theorem webhook_amount_mismatch_rejected_witness :
    verifySign md5c paramsC5 "k" = true
    ∧ orderC5.status = .pending
    ∧ amountMatches (getParam paramsC5 "money") orderC5.amount = false
    ∧ zpayWebhook md5c "k" [orderC5] paramsC5 "t1" = (.amountMismatch, [orderC5]) :=
  ⟨by decide, by decide, by decide,
    webhook_amount_mismatch_rejected md5c "k" [orderC5] paramsC5 "t1" orderC5
      (by decide) (by decide) (by decide) (by decide) (by decide)⟩

def paramsC5cex : Params :=
  [("money", some "0.5"), ("out_trade_no", some "B1"), ("trade_no", some "T1"),
   ("trade_status", some "TRADE_SUCCESS"), ("type", some "alipay"), ("sign", some "0a1b")]

/-- **C5, counterexample to the claim as stated.**  The amount comparison is
not byte-for-byte: for the stored `DECIMAL(10,2)` amount 0.50 a webhook
reporting `money = "0.5"` differs from the stored decimal's canonical bytes
`"0.50"`, yet the callback is accepted — the webhook answers the success
token and mutates the order — because the source compares
`parseFloat("0.5") !== parseFloat(0.50)`, which is numeric, not byte,
equality. -/
theorem webhook_amount_not_byte_compared :
    verifySign md5c paramsC5cex "k" = true
    ∧ getParam paramsC5cex "trade_status" = some "TRADE_SUCCESS"
    ∧ lookupOrder [orderC5] paramsC5cex = some orderC5
    ∧ orderC5.status = .pending
    ∧ getParam paramsC5cex "money" = some "0.5"
    ∧ decimalRepr orderC5.amount = "0.50"
    ∧ "0.5" ≠ decimalRepr orderC5.amount
    ∧ (zpayWebhook md5c "k" [orderC5] paramsC5cex "t1").1 = .success
    ∧ (zpayWebhook md5c "k" [orderC5] paramsC5cex "t1").2 ≠ [orderC5] := by
  decide

def orderC2 : Order :=
  ⟨"C1", "u1", 50, "alipay", .paid, some "T1", some "TRADE_SUCCESS", "t1"⟩

def storeC2 : Store := [orderC2]

def storeC2after : Store := (analyzeTwoPhase storeC2 storeC2 (some "C1") "t2").2

/-- **C2.**  The read-side mapping of the gate (404 unknown / 409 analyzed /
402 unpaid / proceed when paid) matches the claim, but its final clause —
"returns AlreadyConsumed if the conditional `paid → analyzed` transition does
not apply" — is violated by the source: after the checks pass, the handler
inspects only `updateError` (a storage fault), and a conditional update that
matches zero rows reports no error, so the loser of the race also proceeds.
Concretely, for two concurrent analyze calls interleaved read–read–update–
update on the same paid order: the first proceeds; at the second caller's
update, the order is already `analyzed` and its conditional transition does
not apply (the store is left exactly as it was) — yet the second caller also
`proceed`s to the paid action instead of receiving the 409 AlreadyConsumed
response the claim (and the source's own optimistic-lock comment) requires. -/
theorem analyze_lost_race_proceeds :
    (analyzeTwoPhase storeC2 storeC2 (some "C1") "t2").1 = .proceed
    ∧ statusOf storeC2after "C1" = some .analyzed
    ∧ analyzeUpdate storeC2after "C1" "t3" = storeC2after
    ∧ (analyzeTwoPhase storeC2 storeC2after (some "C1") "t3").1 = .proceed
    ∧ (analyzeTwoPhase storeC2 storeC2after (some "C1") "t3").2 = storeC2after := by
  decide


/-- **C8 (amended).**  When the generated order number already exists, the
checkout route does not regenerate or retry: it calls the generator once
(index 0 of the generator stream), and on the duplicate-key insert failure it
immediately fails with the 5xx creation error, leaving the store unchanged —
any generator agreeing at index 0 produces the same outcome, so later
generator outputs are never consulted. -/
theorem createCheckout_duplicate_fails_immediately (gen : Nat → String)
    (store : Store) (uid pay_type : Option String) (now : String)
    (hu : uid ≠ none) (hu2 : uid ≠ some "")
    (hpt : pay_type.getD "alipay" = "alipay" ∨ pay_type.getD "alipay" = "wxpay")
    (hdup : (findOrder store (gen 0)).isSome = true) :
    createCheckout gen store uid pay_type now = (.insertFailed, store)
    ∧ ∀ gen' : Nat → String, gen' 0 = gen 0 →
        createCheckout gen' store uid pay_type now = (.insertFailed, store) := by
  have hu' : ¬(uid = none ∨ uid = some "") := not_or.mpr ⟨hu, hu2⟩
  have hpt' : ¬(pay_type.getD "alipay" ≠ "alipay" ∧ pay_type.getD "alipay" ≠ "wxpay") := by
    rcases hpt with h | h <;> simp [h]
  constructor
  · rw [createCheckout, if_neg hu', if_neg hpt', if_pos hdup]
  · intro gen' hg
    rw [createCheckout, if_neg hu', if_neg hpt', if_pos (by rw [hg]; exact hdup)]

def genC8 : Nat → String := fun i => if i = 0 then "D1" else "D2"

def genC8b : Nat → String := fun i => if i = 0 then "D1" else "D3"

def storeC8 : Store := [⟨"D1", "u0", 50, "alipay", .pending, none, none, "t0"⟩]

theorem createCheckout_duplicate_fails_witness :
    (findOrder storeC8 (genC8 0)).isSome = true
    ∧ createCheckout genC8 storeC8 (some "u1") (some "alipay") "t1" =
        (.insertFailed, storeC8) :=
  ⟨by decide,
    (createCheckout_duplicate_fails_immediately genC8 storeC8 (some "u1")
      (some "alipay") "t1" (by decide) (by decide) (Or.inl (by decide)) (by decide)).1⟩

/-- **C8, counterexample to the claim as stated.**  A colliding first draw is
not retried: with `gen 0 = "D1"` already present and `gen 1` fresh, creation
fails 5xx at once; a second generator identical at index 0 but different at
index 1 yields the identical failure, so no regenerated order number is ever
tried even though the very next draw would have succeeded. -/
theorem createCheckout_no_retry_cex :
    createCheckout genC8 storeC8 (some "u1") (some "alipay") "t1" = (.insertFailed, storeC8)
    ∧ createCheckout genC8b storeC8 (some "u1") (some "alipay") "t1" = (.insertFailed, storeC8)
    ∧ genC8 0 = genC8b 0
    ∧ genC8 1 ≠ genC8b 1
    ∧ findOrder storeC8 (genC8b 1) = none := by
  decide

theorem natStrAux_fuel_irrel : ∀ (fuel fuel' n : Nat), n < fuel → n < fuel' →
    natStrAux fuel n = natStrAux fuel' n := by
  intro fuel
  induction fuel with
  | zero => intro fuel' n h; omega
  | succ f ih =>
    intro fuel' n hf hf'
    cases fuel' with
    | zero => omega
    | succ f' =>
      simp only [natStrAux]
      by_cases h10 : n < 10
      · simp [h10]
      · have hdiv : n / 10 < n := Nat.div_lt_self (by omega) (by norm_num)
        simp only [h10, if_false]
        rw [ih f' (n / 10) (by omega) (by omega)]

theorem natStr_lt_ten {n : Nat} (h : n < 10) :
    natStr n = String.singleton (digitChar n) := by
  simp [natStr, natStrAux, h]

theorem natStr_ge_ten {n : Nat} (h : 10 ≤ n) :
    natStr n = natStr (n / 10) ++ String.singleton (digitChar (n % 10)) := by
  have h1 : ¬n < 10 := not_lt.mpr h
  have hdiv : n / 10 < n := Nat.div_lt_self (by omega) (by norm_num)
  show natStrAux (n + 1) n = natStrAux (n / 10 + 1) (n / 10) ++ String.singleton (digitChar (n % 10))
  rw [show natStrAux (n + 1) n =
      if n < 10 then String.singleton (digitChar n)
      else natStrAux n (n / 10) ++ String.singleton (digitChar (n % 10)) from rfl]
  rw [if_neg h1, natStrAux_fuel_irrel n (n / 10 + 1) (n / 10) (by omega) (by omega)]

theorem length_natStr_lt_ten {n : Nat} (h : n < 10) : (natStr n).length = 1 := by
  rw [natStr_lt_ten h]
  rfl

theorem length_natStr_pow : ∀ (k : Nat) {n : Nat}, 10 ^ k ≤ n → n < 10 ^ (k + 1) →
    (natStr n).length = k + 1 := by
  intro k
  induction k with
  | zero =>
    intro n _ hhi
    exact length_natStr_lt_ten (by simpa using hhi)
  | succ k ih =>
    intro n hlo hhi
    have hten : (10 : Nat) ≤ 10 ^ (k + 1) := by
      calc (10 : Nat) = 10 ^ 1 := (pow_one 10).symm
      _ ≤ 10 ^ (k + 1) := Nat.pow_le_pow_right (by norm_num) (by omega)
    have h10 : 10 ≤ n := le_trans hten hlo
    have hdlo : 10 ^ k ≤ n / 10 := by
      rw [Nat.le_div_iff_mul_le (by norm_num)]
      calc 10 ^ k * 10 = 10 ^ (k + 1) := (pow_succ 10 k).symm
      _ ≤ n := hlo
    have hdhi : n / 10 < 10 ^ (k + 1) := by
      rw [Nat.div_lt_iff_lt_mul (by norm_num)]
      calc n < 10 ^ (k + 1 + 1) := hhi
      _ = 10 ^ (k + 1) * 10 := pow_succ 10 (k + 1)
    rw [natStr_ge_ten h10, String.length_append, ih hdlo hdhi]
    rfl

theorem length_padTwo {n : Nat} (h : n ≤ 99) : (padTwo n).length = 2 := by
  by_cases h10 : n < 10
  · have h1 : (natStr n).length = 1 := length_natStr_lt_ten h10
    rw [padTwo, if_pos (by omega), String.length_append, h1]
    rfl
  · have h2 : (natStr n).length = 2 :=
      length_natStr_pow 1 (by simpa using not_lt.mp h10) (by norm_num; omega)
    rw [padTwo, if_neg (by omega), h2]

theorem isDigit_digitChar {d : Nat} (h : d < 10) : (digitChar d).isDigit = true := by
  interval_cases d <;> decide

theorem natStr_all_digits (n : Nat) : ∀ c ∈ (natStr n).data, c.isDigit = true := by
  induction n using Nat.strong_induction_on with
  | _ n ih =>
    by_cases h : n < 10
    · rw [natStr_lt_ten h]
      intro c hc
      have : c = digitChar n := by simpa [String.singleton] using hc
      exact this ▸ isDigit_digitChar h
    · rw [natStr_ge_ten (not_lt.mp h)]
      intro c hc
      rw [String.data_append] at hc
      rcases List.mem_append.mp hc with h1 | h1
      · exact ih (n / 10) (Nat.div_lt_self (by omega) (by norm_num)) c h1
      · have : c = digitChar (n % 10) := by simpa [String.singleton] using h1
        exact this ▸ isDigit_digitChar (Nat.mod_lt _ (by norm_num))

theorem padTwo_all_digits (n : Nat) : ∀ c ∈ (padTwo n).data, c.isDigit = true := by
  intro c hc
  by_cases h : (natStr n).length < 2
  · rw [padTwo, if_pos h, String.data_append] at hc
    rcases List.mem_append.mp hc with h1 | h1
    · have : c = '0' := by simpa using h1
      exact this ▸ rfl
    · exact natStr_all_digits n c h1
  · rw [padTwo, if_neg h] at hc
    exact natStr_all_digits n c hc

theorem tsString_length (d : JsDate) (hy1 : 1000 ≤ d.year) (hy2 : d.year ≤ 9999)
    (hm : d.month + 1 ≤ 99) (hd : d.day ≤ 99) (hh : d.hour ≤ 99)
    (hmin : d.minute ≤ 99) (hs : d.second ≤ 99) : (tsString d).length = 14 := by
  have hy : (natStr d.year).length = 4 :=
    length_natStr_pow 3 (by rw [show (10 : Nat) ^ 3 = 1000 from by norm_num]; omega)
      (by rw [show (10 : Nat) ^ (3 + 1) = 10000 from by norm_num]; omega)
  rw [tsString, String.length_append, String.length_append, String.length_append,
    String.length_append, String.length_append, hy, length_padTwo hm,
    length_padTwo hd, length_padTwo hh, length_padTwo hmin, length_padTwo hs]

theorem tsString_all_digits (d : JsDate) : ∀ c ∈ (tsString d).data, c.isDigit = true := by
  intro c hc
  rw [tsString, String.data_append, String.data_append, String.data_append,
    String.data_append, String.data_append] at hc
  simp only [List.mem_append] at hc
  rcases hc with ((((h | h) | h) | h) | h) | h
  · exact natStr_all_digits d.year c h
  · exact padTwo_all_digits (d.month + 1) c h
  · exact padTwo_all_digits d.day c h
  · exact padTwo_all_digits d.hour c h
  · exact padTwo_all_digits d.minute c h
  · exact padTwo_all_digits d.second c h

/-- **C9.**  For any clock reading with a four-digit year (every date this
system can see: `String(getFullYear())` is unpadded, so four digits is its
fixed width throughout 1000–9999) and in-range components, and any random
draw `r < 900`, `generateOrderNo` returns the concatenation of the
full-precision timestamp — year, then two-zero-padded month, day, hour,
minute and second, 14 characters in all — with the random suffix
`r + 100`, a number between 100 and 999 rendered as the final three
characters; the whole result is a 17-character all-digit string. -/
theorem generateOrderNo_shape (d : JsDate) (r : Nat)
    (hy1 : 1000 ≤ d.year) (hy2 : d.year ≤ 9999)
    (hm : d.month + 1 ≤ 99) (hd : d.day ≤ 99) (hh : d.hour ≤ 99)
    (hmin : d.minute ≤ 99) (hs : d.second ≤ 99) (hr : r < 900) :
    generateOrderNo d r = tsString d ++ natStr (r + 100)
    ∧ (tsString d).length = 14
    ∧ (natStr (r + 100)).length = 3
    ∧ 100 ≤ r + 100 ∧ r + 100 ≤ 999
    ∧ (generateOrderNo d r).length = 17
    ∧ ∀ c ∈ (generateOrderNo d r).data, c.isDigit = true := by
  have hts : (tsString d).length = 14 := tsString_length d hy1 hy2 hm hd hh hmin hs
  have hrand : (natStr (r + 100)).length = 3 :=
    length_natStr_pow 2 (by rw [show (10 : Nat) ^ 2 = 100 from by norm_num]; omega)
      (by rw [show (10 : Nat) ^ (2 + 1) = 1000 from by norm_num]; omega)
  refine ⟨rfl, hts, hrand, by omega, by omega, ?_, ?_⟩
  · rw [generateOrderNo, String.length_append, hts, hrand]
  · intro c hc
    rw [generateOrderNo, String.data_append] at hc
    rcases List.mem_append.mp hc with h | h
    · exact tsString_all_digits d c h
    · exact natStr_all_digits (r + 100) c h

/-- Witness for C9 at the clock reading and draw of the source comment's
example `20260219231505342`. -/
theorem generateOrderNo_shape_witness :
    generateOrderNo ⟨2026, 1, 19, 23, 15, 5⟩ 242 =
      tsString ⟨2026, 1, 19, 23, 15, 5⟩ ++ natStr 342
    ∧ (tsString ⟨2026, 1, 19, 23, 15, 5⟩).length = 14
    ∧ (natStr 342).length = 3
    ∧ 100 ≤ 342 ∧ 342 ≤ 999
    ∧ (generateOrderNo ⟨2026, 1, 19, 23, 15, 5⟩ 242).length = 17
    ∧ ∀ c ∈ (generateOrderNo ⟨2026, 1, 19, 23, 15, 5⟩ 242).data, c.isDigit = true :=
  generateOrderNo_shape ⟨2026, 1, 19, 23, 15, 5⟩ 242 (by decide) (by decide)
    (by decide) (by decide) (by decide) (by decide) (by decide) (by decide)
